import Mathlib

/-!
Shallow embedding of the QAPortal-backend test/exam lifecycle engine.

The definitions below are translated from the repository's source:
  * `computeStatus`, `startAttempt` (route POST /:id/start) and
    `finishAttempt` (route POST /:id/submit) from the tests router;
  * `submitAnswer` (route POST /submit), `addMark` (POST /marks/add),
    `editMark` (PUT /marks/edit/:id) and `computeTotal`
    (POST /calculate-total) from the answers router;
  * the `Test`, `StudentTest` and `StudentAnswer` Mongoose schemas.

Modelling conventions:
  * Timestamps are integers (milliseconds since the epoch), matching the
    numeric comparison of JavaScript `Date` values.
  * Mongo ObjectIds are natural numbers; the `isValidId`/missing-field
    guards of the routes that concern purely malformed request bodies are
    represented by the `0` / empty-string falsy checks where the source
    has an explicit `!field` test, and are otherwise absorbed by typing.
  * The database is an explicit state value; `findOne` is `List.find?`,
    `findOneAndUpdate` is `updateFirst` over the matching predicate, and
    an upsert appends when no row matches.  A handler that responds with
    an error before reaching its write returns `.error` and the state is
    unchanged by construction, mirroring the early `return res.status(...)`
    exits of the source.
  * Each request handler samples `new Date()` / `Date.now()` once or twice
    within one request; the embedding threads a single `now` instant
    through the handler, the spec's "single consistent now snapshot".
-/

namespace QAPortal

/-- Typed outcomes of the route handlers; each constructor corresponds to one
concrete `res.status(...).json({ message })` early exit of the source. -/
inductive ApiError where
  | missingFields
  | testNotFound
  | questionNotFound
  | domainNotFound
  | answerNotFound
  | notActive
  | domainNotInTest
  | invalidSection
  | alreadyCompleted
  | examExpired
  | answerTextRequired
  | invalidMark
  | markAlreadyExists
  | noExistingMark
  | notStarted
  deriving DecidableEq

/-- The `Test` schema: title, domains, window dates, durationMinutes
(default 60), sections, eligibleStudents, and the advisory stored status. -/
structure Test where
  id : Nat
  title : String
  domains : List Nat
  startDate : Int
  endDate : Int
  durationMinutes : Int
  sections : List String
  eligibleStudents : List Nat
  status : String
  deriving DecidableEq

/-- The `StudentTest` schema (the Attempt Ledger row): one per
(student, test), with optional times, score, selection and a lifecycle
status whose schema default is "pending". -/
structure StudentTest where
  student : Nat
  test : Nat
  startTime : Option Int
  dueTime : Option Int
  endTime : Option Int
  score : Option Int
  selectedDomain : Option Nat
  selectedSection : Option String
  status : String
  deriving DecidableEq

/-- The `StudentAnswer` schema.  `sect` embeds the source field `section`
(`section` is a Lean keyword).  `mark` defaults to null; `markSubmitted`
is set by the add-mark route. -/
structure StudentAnswer where
  id : Nat
  student : Nat
  domain : Nat
  question : Nat
  test : Option Nat
  sect : String
  answerText : Option String
  imageUrl : Option String
  imagePublicId : Option String
  submittedAt : Int
  examStartTime : Int
  examEndTime : Int
  isSubmitted : Bool
  mark : Option Int
  markSubmitted : Bool
  deriving DecidableEq

/-- The persistent state visible to the embedded handlers: the `Test`,
`Question` (ids), `Domain` (ids), `StudentTest` and `StudentAnswer`
collections, plus a fresh-id counter for created answers. -/
structure DB where
  tests : List Test
  questions : List Nat
  domains : List Nat
  studentTests : List StudentTest
  answers : List StudentAnswer
  nextAnswerId : Nat
  deriving DecidableEq

/-- `findOneAndUpdate` on the first document matching `p`: apply `f` to the
first element satisfying `p`, keep the rest. -/
def updateFirst (p : α → Bool) (f : α → α) : List α → List α
  | [] => []
  | x :: xs => if p x then f x :: xs else x :: updateFirst p f xs

/-- `computeStatus` from the tests router: `'inactive'` when now is before
`startDate`, `'finished'` when now is after `endDate`, else `'active'`.
The source samples `Date.now()` inside; the embedding takes the sampled
instant as the `now` argument.  (The student listing endpoint buckets
tests with this status `'inactive'` under its `upcoming` key, so
`'inactive'` is the code's name for the spec's `upcoming`.) -/
def computeStatus (t : Test) (now : Int) : String :=
  if now < t.startDate then "inactive"
  else if now > t.endDate then "finished"
  else "active"

/-- The key predicate of the (student, test) Attempt Ledger row, the filter
of every `findOne`/`findOneAndUpdate` on the `StudentTest` collection. -/
def attemptKey (studentId testId : Nat) (r : StudentTest) : Bool :=
  r.student == studentId && r.test == testId

/-- The `findOne({ student, test })` lookup used by the start, submit and
calculate-total routes. -/
def findStudentTest (db : DB) (studentId testId : Nat) : Option StudentTest :=
  db.studentTests.find? (attemptKey studentId testId)

/-- The start route's window length in milliseconds:
`(test.durationMinutes || 60) * 60 * 1000` (JS `||` takes 60 when the
stored value is falsy). -/
def startDurationMs (t : Test) : Int :=
  (if t.durationMinutes == 0 then 60 else t.durationMinutes) * 60 * 1000

/-- The `$set` patch of the start route's `findOneAndUpdate` upsert. -/
def startPatch (domainId : Nat) (sec : String) (start due : Int)
    (st : StudentTest) : StudentTest :=
  { st with startTime := some start, dueTime := some due,
            status := "in-progress", selectedDomain := some domainId,
            selectedSection := some sec }

/-- Route POST /:id/start (student start test), translated check for check:
test lookup, derived-status gate, domain membership, section membership,
rejection of completed/expired attempts, then an unconditional
`findOneAndUpdate` upsert that `$set`s startTime = now,
dueTime = now + (durationMinutes || 60) minutes, status = 'in-progress'
and the selection.  Note the source has no check against
`test.eligibleStudents`, and the upsert overwrites the window of an
existing pending/in-progress row.  The route also returns the question
list for the chosen domain+section, a pure read elided here. -/
def startAttempt (db : DB) (studentId testId domainId : Nat) (sec : String)
    (now : Int) : Except ApiError (StudentTest × DB) :=
  match db.tests.find? (fun t => t.id == testId) with
  | none => .error .testNotFound
  | some test =>
    if computeStatus test now != "active" then .error .notActive
    else if !(test.domains.contains domainId) then .error .domainNotInTest
    else if !(test.sections.contains sec) then .error .invalidSection
    else
      let existing := findStudentTest db studentId testId
      if (match existing with
          | some st => st.status == "completed" || st.status == "expired"
          | none => false) then .error .alreadyCompleted
      else
        let due : Int := now + startDurationMs test
        match existing with
        | some st =>
          let st' := startPatch domainId sec now due st
          let sts :=
            updateFirst (attemptKey studentId testId)
              (startPatch domainId sec now due) db.studentTests
          .ok (st', { db with studentTests := sts })
        | none =>
          let st' : StudentTest :=
            { student := studentId, test := testId, startTime := some now,
              dueTime := some due, endTime := none, score := none,
              selectedDomain := some domainId, selectedSection := some sec,
              status := "in-progress" }
          .ok (st', { db with studentTests := db.studentTests ++ [st'] })

/-- Route POST /:id/submit (student finishes a test): loads the
(student, test) row, 404 "Not started" when absent, otherwise sets
endTime = now and status = 'expired' when `st.dueTime && now > st.dueTime`
(a missing dueTime is falsy, hence 'completed'), else 'completed'. -/
def finishAttempt (db : DB) (studentId testId : Nat) (now : Int) :
    Except ApiError (String × DB) :=
  match findStudentTest db studentId testId with
  | none => .error .notStarted
  | some st =>
    let expired : Bool :=
      match st.dueTime with
      | some d => now > d
      | none => false
    let newStatus := if expired then "expired" else "completed"
    let sts :=
      updateFirst (attemptKey studentId testId)
        (fun r => { r with endTime := some now, status := newStatus })
        db.studentTests
    .ok (newStatus, { db with studentTests := sts })

/-- The `findOne({ student, question, domain, section })` key used by the
answer-submission route: at most one answer per that 4-tuple is the
intended write policy. -/
def answerKey (studentId questionId domainId : Nat) (sec : String)
    (a : StudentAnswer) : Bool :=
  a.student == studentId && a.question == questionId &&
    a.domain == domainId && a.sect == sec

/-- The 4-tuple itself, for stating the uniqueness invariant. -/
def answerKeyTuple (a : StudentAnswer) : Nat × Nat × Nat × String :=
  (a.student, a.question, a.domain, a.sect)

/-- JS `String.prototype.trim()`: strip whitespace from both ends of the
string (structural, so that concrete runs of the handlers evaluate). -/
def trimString (s : String) : String :=
  String.mk
    (((s.data.dropWhile Char.isWhitespace).reverse.dropWhile
        Char.isWhitespace).reverse)

/-- The `Object.assign(existingAnswer, answerData)` replacement performed by
the submission route: student/domain/question/test/section and the
examStartTime/examEndTime/submittedAt snapshot are overwritten, the
trimmed answer text is set (the route rejects empty text before this
point), image metadata is overwritten only when supplied, and the mark
fields are untouched. -/
def assignAnswerData (studentId questionId domainId : Nat) (sec : String)
    (testId : Option Nat) (startTime endTime now : Int) (trimmed : String)
    (imageUrl imagePublicId : Option String) (a : StudentAnswer) :
    StudentAnswer :=
  { a with student := studentId, domain := domainId, question := questionId,
           test := testId, sect := sec, examStartTime := startTime,
           examEndTime := endTime, submittedAt := now,
           answerText := some trimmed,
           imageUrl := (match imageUrl with
                        | some u => some u
                        | none => a.imageUrl),
           imagePublicId := (match imagePublicId with
                             | some p => some p
                             | none => a.imagePublicId) }

/-- Route POST /submit (submit answer for a question): required-field check
(JS falsiness of the body fields, embedded as the 0/empty values),
question and domain existence, the deadline check against
examStartTime + 2 hours (the hardcoded `2 * 60 * 60 * 1000` of the
source — the test's durationMinutes is never read here), the non-empty
trimmed-text check, then either an in-place update of the existing
(student, question, domain, section) answer or creation of a new one. -/
def submitAnswer (db : DB) (studentId questionId domainId : Nat)
    (sec : String) (examStartTime : Int) (answerText : String)
    (testId : Option Nat) (imageUrl imagePublicId : Option String)
    (now : Int) : Except ApiError (StudentAnswer × DB) :=
  if questionId == 0 || domainId == 0 || sec == "" || examStartTime == 0 then
    .error .missingFields
  else if !(db.questions.contains questionId) then .error .questionNotFound
  else if !(db.domains.contains domainId) then .error .domainNotFound
  else
    let startTime := examStartTime
    let endTime := startTime + 2 * 60 * 60 * 1000
    if now > endTime then .error .examExpired
    else
      let existing := db.answers.find? (answerKey studentId questionId domainId sec)
      if trimString answerText == "" then .error .answerTextRequired
      else
        let assign := assignAnswerData studentId questionId domainId sec
          testId startTime endTime now (trimString answerText) imageUrl imagePublicId
        match existing with
        | some a =>
          let a' := assign a
          let ans :=
            updateFirst (answerKey studentId questionId domainId sec) assign
              db.answers
          .ok (a', { db with answers := ans })
        | none =>
          let fresh : StudentAnswer := assign
            { id := db.nextAnswerId, student := studentId, domain := domainId,
              question := questionId, test := none, sect := sec,
              answerText := none, imageUrl := none, imagePublicId := none,
              submittedAt := now, examStartTime := startTime,
              examEndTime := endTime, isSubmitted := true, mark := none,
              markSubmitted := false }
          .ok (fresh, { db with answers := db.answers ++ [fresh],
                                nextAnswerId := db.nextAnswerId + 1 })

/-- Route POST /marks/add: rejects a non-numeric or negative mark, then the
atomic `findOneAndUpdate({ _id, $or: [{mark: null}, {mark: missing}] },
{ $set: { mark, markSubmitted: true } })`: the update applies only when
the mark is currently unset; otherwise answer-not-found or
mark-already-exists is reported, distinguished by a second lookup. -/
def addMark (db : DB) (answerId : Nat) (mark : Int) :
    Except ApiError (StudentAnswer × DB) :=
  if mark < 0 then .error .invalidMark
  else
    match db.answers.find? (fun a => a.id == answerId && a.mark.isNone) with
    | some a =>
      let upd : StudentAnswer → StudentAnswer :=
        fun b => { b with mark := some mark, markSubmitted := true }
      let ans := updateFirst (fun b => b.id == answerId && b.mark.isNone) upd
        db.answers
      .ok (upd a, { db with answers := ans })
    | none =>
      match db.answers.find? (fun a => a.id == answerId) with
      | none => .error .answerNotFound
      | some _ => .error .markAlreadyExists

/-- Route PUT /marks/edit/:id: rejects a non-numeric or negative mark, then
the atomic `findOneAndUpdate({ _id, mark: { $ne: null } },
{ $set: { mark } })`: the update applies only when a mark already
exists; otherwise answer-not-found or no-existing-mark is reported. -/
def editMark (db : DB) (answerId : Nat) (mark : Int) :
    Except ApiError (StudentAnswer × DB) :=
  if mark < 0 then .error .invalidMark
  else
    match db.answers.find? (fun a => a.id == answerId && a.mark.isSome) with
    | some a =>
      let upd : StudentAnswer → StudentAnswer :=
        fun b => { b with mark := some mark }
      let ans := updateFirst (fun b => b.id == answerId && b.mark.isSome) upd
        db.answers
      .ok (upd a, { db with answers := ans })
    | none =>
      match db.answers.find? (fun a => a.id == answerId) with
      | none => .error .answerNotFound
      | some _ => .error .noExistingMark

/-- The reducer of the calculate-total route:
`sum + (a.mark !== null && a.mark !== undefined ? a.mark : 0)`. -/
def markOrZero (a : StudentAnswer) : Int :=
  match a.mark with
  | some m => m
  | none => 0

/-- The answer filter of the calculate-total route:
`{ student, domain }`, plus `{ test }` when a testId is given. -/
def totalFilter (studentId domainId : Nat) (testId : Option Nat)
    (a : StudentAnswer) : Bool :=
  a.student == studentId && a.domain == domainId &&
    (match testId with
     | some tid => a.test == some tid
     | none => true)

/-- Route POST /calculate-total: required-field check, sum of the marks of
the matching answers treating an unset mark as 0, and, when a testId is
given, an upsert of that sum onto the (student, test) `StudentTest` row's
score (the row is created with its schema defaults when absent; the
source's `Test.findById(testId)` result is ignored). -/
def computeTotal (db : DB) (studentId domainId : Nat) (testId : Option Nat) :
    Except ApiError (Int × DB) :=
  if studentId == 0 || domainId == 0 then .error .missingFields
  else
    let matching := db.answers.filter (totalFilter studentId domainId testId)
    let total := matching.foldl (fun sum a => sum + markOrZero a) 0
    match testId with
    | none => .ok (total, db)
    | some tid =>
      match findStudentTest db studentId tid with
      | some _ =>
        let sts :=
          updateFirst (attemptKey studentId tid)
            (fun r => { r with score := some total }) db.studentTests
        .ok (total, { db with studentTests := sts })
      | none =>
        let st : StudentTest :=
          { student := studentId, test := tid, startTime := none,
            dueTime := none, endTime := none, score := some total,
            selectedDomain := none, selectedSection := none,
            status := "pending" }
        .ok (total, { db with studentTests := db.studentTests ++ [st] })

/-- A test whose window 0..100000000 is open, with durationMinutes = 60 and
no eligibility restriction. -/
def testOne : Test :=
  { id := 1, title := "t1", domains := [5], startDate := 0,
    endDate := 100000000, durationMinutes := 60, sections := ["A", "B"],
    eligibleStudents := [], status := "inactive" }

/-- A test restricted to student 10 (non-empty eligibleStudents). -/
def restrictedTest : Test :=
  { id := 2, title := "t2", domains := [5], startDate := 0,
    endDate := 100000000, durationMinutes := 60, sections := ["A", "B"],
    eligibleStudents := [10], status := "inactive" }

/-- An in-progress attempt of student 7 on test 1 whose allocated window
1000000..4600000 already elapsed. -/
def inProgressAttempt : StudentTest :=
  { student := 7, test := 1, startTime := some 1000000,
    dueTime := some 4600000, endTime := none, score := none,
    selectedDomain := some 5, selectedSection := some "A",
    status := "in-progress" }

/-- State with `testOne` and `inProgressAttempt` present. -/
def reentryDB : DB :=
  { tests := [testOne], questions := [4], domains := [5],
    studentTests := [inProgressAttempt], answers := [], nextAnswerId := 0 }

/-- State with only the restricted test and no attempts. -/
def eligibilityDB : DB :=
  { tests := [restrictedTest], questions := [4], domains := [5],
    studentTests := [], answers := [], nextAnswerId := 0 }

/-- A row as created by `computeTotal`'s score upsert before any admission:
score set, no startTime/dueTime, schema-default status 'pending'. -/
def scoreOnlyAttempt : StudentTest :=
  { student := 1, test := 3, startTime := none, dueTime := none,
    endTime := none, score := some 0, selectedDomain := none,
    selectedSection := none, status := "pending" }

/-- The empty state. -/
def blankDB : DB :=
  { tests := [], questions := [], domains := [], studentTests := [],
    answers := [], nextAnswerId := 0 }

/-- The state after `computeTotal blankDB 1 2 (some 3)`. -/
def scoreOnlyDB : DB :=
  { tests := [], questions := [], domains := [],
    studentTests := [scoreOnlyAttempt], answers := [], nextAnswerId := 0 }

/-- A test with durationMinutes = 60 used to compare the start route's
window against the submission route's deadline. -/
def testNine : Test :=
  { id := 9, title := "t9", domains := [5], startDate := 0,
    endDate := 100000000, durationMinutes := 60, sections := ["A", "B"],
    eligibleStudents := [], status := "inactive" }

/-- State holding `testNine`, question 4 and domain 5, no attempts or
answers yet. -/
def submitDB : DB :=
  { tests := [testNine], questions := [4], domains := [5],
    studentTests := [], answers := [], nextAnswerId := 0 }

/-- An unmarked answer used to exercise the mark routes. -/
def baseAnswer : StudentAnswer :=
  { id := 11, student := 1, domain := 5, question := 4, test := some 9,
    sect := "A", answerText := some "hello", imageUrl := none,
    imagePublicId := none, submittedAt := 100, examStartTime := 50,
    examEndTime := 7200050, isSubmitted := true, mark := none,
    markSubmitted := false }

/-- State with the single unmarked `baseAnswer`. -/
def marksDB : DB :=
  { tests := [], questions := [4], domains := [5], studentTests := [],
    answers := [baseAnswer], nextAnswerId := 12 }

/-- The claim's reading of the total: the sum of the marks of the matching
answers, an unset mark counting 0 (to be compared with the route's
`reduce`). -/
def answersMarkSum (db : DB) (studentId domainId : Nat)
    (testId : Option Nat) : Int :=
  ((db.answers.filter (totalFilter studentId domainId testId)).map
    markOrZero).sum

/-- An answer of student 1, domain 2, test 3 carrying mark 3. -/
def answerA : StudentAnswer :=
  { id := 1, student := 1, domain := 2, question := 21, test := some 3,
    sect := "A", answerText := some "x", imageUrl := none,
    imagePublicId := none, submittedAt := 10, examStartTime := 5,
    examEndTime := 7200005, isSubmitted := true, mark := some 3,
    markSubmitted := true }

/-- A second answer of the same student carrying mark 5. -/
def answerB : StudentAnswer :=
  { answerA with id := 2, question := 22, mark := some 5 }

/-- A third answer of the same student with no mark yet. -/
def answerC : StudentAnswer :=
  { answerA with id := 3, question := 23, mark := none, markSubmitted := false }

/-- State with the three answers carrying marks [3, 5, null]. -/
def totalsDB : DB :=
  { tests := [], questions := [], domains := [], studentTests := [],
    answers := [answerA, answerB, answerC], nextAnswerId := 4 }

/-- The uniqueness invariant of the Answer collection: at most one row per
(student, question, domain, section) key. -/
def answersKeyUnique (db : DB) : Prop :=
  (db.answers.map answerKeyTuple).Nodup

/-- The answer document created by the submission route when no
(student, question, domain, section) row exists yet. -/
def freshAnswer (db : DB) (studentId questionId domainId : Nat)
    (sec : String) (testId : Option Nat) (examStartTime : Int)
    (answerText : String) (imageUrl imagePublicId : Option String)
    (now : Int) : StudentAnswer :=
  assignAnswerData studentId questionId domainId sec testId examStartTime
    (examStartTime + 2 * 60 * 60 * 1000) now (trimString answerText)
    imageUrl imagePublicId
    { id := db.nextAnswerId, student := studentId, domain := domainId,
      question := questionId, test := none, sect := sec, answerText := none,
      imageUrl := none, imagePublicId := none, submittedAt := now,
      examStartTime := examStartTime,
      examEndTime := examStartTime + 2 * 60 * 60 * 1000, isSubmitted := true,
      mark := none, markSubmitted := false }

/-- Updating the first `p`-match does not change the length of the list. -/
theorem length_updateFirst {α : Type} (p : α → Bool) (f : α → α)
    (l : List α) : (updateFirst p f l).length = l.length := by
  induction l with
  | nil => rfl
  | cons a l ih =>
    simp only [updateFirst]
    by_cases hpa : p a = true
    · simp [hpa]
    · simp [hpa, ih]

/-- Updating the first `p`-match with a function that preserves `g` on
`p`-matches leaves the `g`-image of the list unchanged. -/
theorem map_updateFirst {α β : Type} (g : α → β) (p : α → Bool) (f : α → α)
    (l : List α) (hf : ∀ a, p a = true → g (f a) = g a) :
    (updateFirst p f l).map g = l.map g := by
  induction l with
  | nil => rfl
  | cons a l ih =>
    simp only [updateFirst]
    by_cases hpa : p a = true
    · simp [hpa, hf a hpa]
    · simp [hpa, ih]

/-- After updating the first `p`-match, `find? p` returns the updated
element, provided the update keeps it a `p`-match. -/
theorem find?_updateFirst_self {α : Type} {p : α → Bool} {f : α → α}
    {l : List α} {x : α} (hx : l.find? p = some x) (hf : p (f x) = true) :
    (updateFirst p f l).find? p = some (f x) := by
  induction l with
  | nil => simp at hx
  | cons a l ih =>
    by_cases hpa : p a = true
    · rw [List.find?_cons_of_pos _ hpa] at hx
      injection hx with hx
      subst hx
      simp only [updateFirst, if_pos hpa]
      exact List.find?_cons_of_pos _ hf
    · rw [List.find?_cons_of_neg _ hpa] at hx
      simp only [updateFirst, if_neg hpa]
      rw [List.find?_cons_of_neg _ hpa]
      exact ih hx

/-- Explicit-argument form of `find?_updateFirst_self`, for call sites where
the update function cannot be inferred from the goal. -/
theorem find?_updateFirst_selfE {α : Type} (p : α → Bool) (f : α → α)
    (l : List α) (x : α) (hx : l.find? p = some x) (hf : p (f x) = true) :
    (updateFirst p f l).find? p = some (f x) :=
  find?_updateFirst_self hx hf

/-- Appending one element to a list with no `p`-match: `find? p` finds the
appended element exactly when it matches. -/
theorem find?_append_none {α : Type} {p : α → Bool} {l : List α} (x : α)
    (h : l.find? p = none) :
    (l ++ [x]).find? p = if p x then some x else none := by
  induction l with
  | nil =>
    simp only [List.nil_append]
    by_cases hpx : p x = true
    · rw [List.find?_cons_of_pos _ hpx, if_pos hpx]
    · rw [List.find?_cons_of_neg _ hpx, if_neg hpx]
      rfl
  | cons a l ih =>
    have hpa : ¬ p a = true := by
      intro hp
      rw [List.find?_cons_of_pos _ hp] at h
      exact Option.noConfusion h
    rw [List.find?_cons_of_neg _ hpa] at h
    rw [List.cons_append, List.find?_cons_of_neg _ hpa]
    exact ih h

/-- `find?` on a cons whose head matches, with the predicate explicit. -/
theorem find?_cons_pos {α : Type} (p : α → Bool) (a : α) (l : List α)
    (h : p a = true) : (a :: l).find? p = some a := by
  simp [List.find?_cons, h]

/-- `find?` on a cons whose head does not match, with the predicate
explicit. -/
theorem find?_cons_neg {α : Type} (p : α → Bool) (a : α) (l : List α)
    (h : ¬ p a = true) : (a :: l).find? p = l.find? p := by
  simp [List.find?_cons, h]

/-- In an answers list with pairwise-distinct ids, a conjunctive filter
`id == aid && extra` finds the unique id-match `a` exactly when `extra a`
holds (the Mongo filter semantics of the mark routes). -/
theorem find?_id_conj {l : List StudentAnswer} {aid : Nat}
    {extra : StudentAnswer → Bool} {a : StudentAnswer}
    (hnd : (l.map (fun b => b.id)).Nodup)
    (ha : l.find? (fun b => b.id == aid) = some a) :
    l.find? (fun b => b.id == aid && extra b) =
      (if extra a then some a else none) := by
  induction l with
  | nil => simp at ha
  | cons x xs ih =>
    rw [List.map_cons, List.nodup_cons] at hnd
    obtain ⟨hx_not, hnd'⟩ := hnd
    by_cases hid : (x.id == aid) = true
    · rw [find?_cons_pos (fun b => b.id == aid) x xs hid] at ha
      injection ha with ha
      subst ha
      have hxid : x.id = aid := by simpa using hid
      by_cases hex : extra x = true
      · rw [if_pos hex]
        exact find?_cons_pos _ x xs (by simp [hid, hex])
      · rw [if_neg hex]
        have hhead : ¬ ((x.id == aid && extra x) = true) := by
          simp [hex]
        rw [find?_cons_neg (fun b => b.id == aid && extra b) x xs hhead]
        rw [List.find?_eq_none]
        intro b hb hpb
        have hbid : b.id = aid := by
          simpa using ((Bool.and_eq_true _ _).mp hpb).1
        exact hx_not (List.mem_map.mpr ⟨b, hb, by rw [hbid, hxid]⟩)
    · rw [find?_cons_neg (fun b => b.id == aid) x xs hid] at ha
      have hhead : ¬ ((x.id == aid && extra x) = true) := by
        simp only [Bool.and_eq_true]
        intro hc
        exact hid hc.1
      rw [find?_cons_neg (fun b => b.id == aid && extra b) x xs hhead]
      exact ih hnd' ha

/-- Updating the first match of the conjunctive filter `id == aid && extra`
with an id-preserving function, when the first plain id-match `a`
satisfies `extra`, makes the first plain id-match be `f a`. -/
theorem find?_id_updateFirst_conj {l : List StudentAnswer} {aid : Nat}
    {extra : StudentAnswer → Bool} {f : StudentAnswer → StudentAnswer}
    {a : StudentAnswer}
    (ha : l.find? (fun b => b.id == aid) = some a) (hx : extra a = true)
    (hf : ∀ b, (f b).id = b.id) :
    (updateFirst (fun b => b.id == aid && extra b) f l).find?
      (fun b => b.id == aid) = some (f a) := by
  induction l with
  | nil => simp at ha
  | cons x xs ih =>
    by_cases hid : (x.id == aid) = true
    · rw [find?_cons_pos (fun b => b.id == aid) x xs hid] at ha
      injection ha with ha
      subst ha
      have hhead : (x.id == aid && extra x) = true := by simp [hid, hx]
      simp only [updateFirst, if_pos hhead]
      exact find?_cons_pos _ (f x) xs (by rw [hf x]; exact hid)
    · rw [find?_cons_neg (fun b => b.id == aid) x xs hid] at ha
      have hhead : ¬ ((x.id == aid && extra x) = true) := by
        simp only [Bool.and_eq_true]
        intro hc
        exact hid hc.1
      simp only [updateFirst, if_neg hhead]
      rw [find?_cons_neg (fun b => b.id == aid) x _ hid]
      exact ih ha

/-- `startPatch` leaves the (student, test) key of a row unchanged. -/
theorem attemptKey_startPatch (studentId testId domainId : Nat)
    (sec : String) (start due : Int) (r : StudentTest) :
    attemptKey studentId testId (startPatch domainId sec start due r) =
      attemptKey studentId testId r := rfl

/-- Helper: when every admission precondition of the start route holds and a
pending/in-progress row already exists, the route overwrites that row with
the freshly allocated window. -/
theorem startAttempt_existing (db : DB) (studentId testId domainId : Nat)
    (sec : String) (now : Int) (test : Test) (st : StudentTest)
    (hte : db.tests.find? (fun t => t.id == testId) = some test)
    (hact : computeStatus test now = "active")
    (hdom : test.domains.contains domainId = true)
    (hsec : test.sections.contains sec = true)
    (hfind : findStudentTest db studentId testId = some st)
    (h1 : st.status ≠ "completed") (h2 : st.status ≠ "expired") :
    startAttempt db studentId testId domainId sec now =
      .ok (startPatch domainId sec now (now + startDurationMs test) st,
        { db with studentTests := updateFirst (attemptKey studentId testId) (startPatch domainId sec now (now + startDurationMs test)) db.studentTests }) := by
  have hc1 : (st.status == "completed") = false := by
    simp [h1]
  have hc2 : (st.status == "expired") = false := by
    simp [h2]
  simp only [startAttempt, hte, hact, hfind, hdom, hsec, hc1, hc2]
  simp

/-- Helper: when every admission precondition of the start route holds and
no (student, test) row exists yet, the route creates the row with the
freshly allocated window. -/
theorem startAttempt_new (db : DB) (studentId testId domainId : Nat)
    (sec : String) (now : Int) (test : Test)
    (hte : db.tests.find? (fun t => t.id == testId) = some test)
    (hact : computeStatus test now = "active")
    (hdom : test.domains.contains domainId = true)
    (hsec : test.sections.contains sec = true)
    (hfind : findStudentTest db studentId testId = none) :
    startAttempt db studentId testId domainId sec now =
      .ok ({ student := studentId, test := testId, startTime := some now,
             dueTime := some (now + startDurationMs test), endTime := none,
             score := none, selectedDomain := some domainId,
             selectedSection := some sec, status := "in-progress" },
        { db with studentTests := db.studentTests ++
          [{ student := studentId, test := testId, startTime := some now,
             dueTime := some (now + startDurationMs test), endTime := none,
             score := none, selectedDomain := some domainId,
             selectedSection := some sec, status := "in-progress" }] }) := by
  simp only [startAttempt, hte, hact, hfind, hdom, hsec]
  simp

/-- C1 counterexample: in `reentryDB` student 7 holds an in-progress attempt
on test 1 with dueTime 4600000; a repeated start call at now = 9000000 —
strictly past that dueTime — neither reports expiry nor returns the
existing window: it succeeds with a fresh window 9000000..12600000,
contradicting both halves of the claim. -/
theorem startAttempt_reentry_cex :
    findStudentTest reentryDB 7 1 = some inProgressAttempt ∧
    inProgressAttempt.dueTime = some 4600000 ∧
    (4600000 : Int) < 9000000 ∧
    (startAttempt reentryDB 7 1 5 "A" 9000000).toOption.map
        (fun r => (r.1.startTime, r.1.dueTime, r.1.status)) =
      some (some 9000000, some 12600000, "in-progress") := by
  refine ⟨rfl, rfl, by decide, rfl⟩

/-- C1, amended: for an existing pending/in-progress attempt, a repeated
`startAttempt` does not return the existing window and never consults the
stored dueTime: it unconditionally overwrites the row with
startTime = now and dueTime = now + the test's duration — for every
`now`, in particular one past the stored dueTime.  Re-entry therefore
extends the deadline, and expiry of the old window is not reported. -/
theorem startAttempt_reentry_reallocates (db : DB)
    (studentId testId domainId : Nat) (sec : String) (now : Int)
    (test : Test) (st : StudentTest)
    (hte : db.tests.find? (fun t => t.id == testId) = some test)
    (hact : computeStatus test now = "active")
    (hdom : test.domains.contains domainId = true)
    (hsec : test.sections.contains sec = true)
    (hfind : findStudentTest db studentId testId = some st)
    (h1 : st.status ≠ "completed") (h2 : st.status ≠ "expired") :
    ∃ db', startAttempt db studentId testId domainId sec now =
        .ok (startPatch domainId sec now (now + startDurationMs test) st, db') ∧
      findStudentTest db' studentId testId =
        some (startPatch domainId sec now (now + startDurationMs test) st) ∧
      (startPatch domainId sec now (now + startDurationMs test) st).startTime
        = some now ∧
      (startPatch domainId sec now (now + startDurationMs test) st).dueTime
        = some (now + startDurationMs test) := by
  refine ⟨_, startAttempt_existing db studentId testId domainId sec now test
    st hte hact hdom hsec hfind h1 h2, ?_, rfl, rfl⟩
  unfold findStudentTest at hfind ⊢
  have hp : attemptKey studentId testId st = true := List.find?_some hfind
  exact find?_updateFirst_self hfind
    (by rw [attemptKey_startPatch]; exact hp)

/-- C1 witness: the amended theorem applied in `reentryDB` at the concrete
re-entry instant 9000000. -/
theorem startAttempt_reentry_reallocates_witness :
    ∃ db', startAttempt reentryDB 7 1 5 "A" 9000000 =
        .ok (startPatch 5 "A" 9000000 (9000000 + startDurationMs testOne)
          inProgressAttempt, db') ∧
      findStudentTest db' 7 1 =
        some (startPatch 5 "A" 9000000 (9000000 + startDurationMs testOne)
          inProgressAttempt) ∧
      (startPatch 5 "A" 9000000 (9000000 + startDurationMs testOne)
        inProgressAttempt).startTime = some 9000000 ∧
      (startPatch 5 "A" 9000000 (9000000 + startDurationMs testOne)
        inProgressAttempt).dueTime =
          some (9000000 + startDurationMs testOne) :=
  startAttempt_reentry_reallocates reentryDB 7 1 5 "A" 9000000 testOne
    inProgressAttempt (by decide) (by decide) (by decide) (by decide)
    (by decide) (by decide) (by decide)

/-- C2 counterexample: `restrictedTest` has eligibleStudents = [10], and
student 20 is not in it; yet `startAttempt` admits student 20 (the route
has no eligibility check), instead of failing NotEligible as claimed. -/
theorem startAttempt_eligibility_cex :
    restrictedTest.eligibleStudents = [10] ∧
    20 ∉ restrictedTest.eligibleStudents ∧
    (startAttempt eligibilityDB 20 2 5 "A" 50).toOption.isSome = true := by
  refine ⟨rfl, by decide, rfl⟩

/-- C2, amended: the start route never reads `eligibleStudents`, so there is
no NotEligible rejection: under the remaining admission preconditions a
student outside a non-empty eligibleStudents set is admitted just the
same.  (The second half of the claim — an empty set admits any
student — holds, likewise because no check is performed; the eligibility
filter exists only in the student test-listing endpoint.) -/
theorem startAttempt_ignores_eligibility (db : DB)
    (studentId testId domainId : Nat) (sec : String) (now : Int) (test : Test)
    (hte : db.tests.find? (fun t => t.id == testId) = some test)
    (hact : computeStatus test now = "active")
    (hdom : test.domains.contains domainId = true)
    (hsec : test.sections.contains sec = true)
    (hnd : ∀ st, findStudentTest db studentId testId = some st →
        st.status ≠ "completed" ∧ st.status ≠ "expired")
    (hout : studentId ∉ test.eligibleStudents)
    (hne : test.eligibleStudents ≠ []) :
    (startAttempt db studentId testId domainId sec now).toOption.isSome
      = true := by
  cases hfind : findStudentTest db studentId testId with
  | none =>
    rw [startAttempt_new db studentId testId domainId sec now test
      hte hact hdom hsec hfind]
    rfl
  | some st =>
    obtain ⟨h1, h2⟩ := hnd st hfind
    rw [startAttempt_existing db studentId testId domainId sec now test st
      hte hact hdom hsec hfind h1 h2]
    rfl

/-- C2 witness: the amended theorem applied to the restricted test and the
outside student 20. -/
theorem startAttempt_ignores_eligibility_witness :
    (startAttempt eligibilityDB 20 2 5 "A" 50).toOption.isSome = true :=
  startAttempt_ignores_eligibility eligibilityDB 20 2 5 "A" 50 restrictedTest
    (by decide) (by decide) (by decide) (by decide)
    (by intro st h; simp [findStudentTest, eligibilityDB] at h)
    (by decide) (by decide)

/-- C8 (confirmed): `computeStatus` — the code's deriveStatus — is a total
function of (now, startDate, endDate) alone: it returns 'inactive' (the
code's label for the spec's `upcoming`; the student listing buckets
'inactive' tests under its `upcoming` key) when now < startDate,
'finished' when now > endDate, 'active' otherwise, and its value is
invariant under any change of the stored `status` field.  The hypothesis
endDate > startDate is the Test schema invariant. -/
theorem computeStatus_spec (t : Test) (now : Int)
    (hw : t.startDate < t.endDate) :
    (now < t.startDate → computeStatus t now = "inactive") ∧
    (now > t.endDate → computeStatus t now = "finished") ∧
    (t.startDate ≤ now → now ≤ t.endDate → computeStatus t now = "active") ∧
    (∀ s, computeStatus { t with status := s } now = computeStatus t now) := by
  refine ⟨?_, ?_, ?_, fun s => rfl⟩
  · intro h
    simp [computeStatus, h]
  · intro h
    have h' : ¬ now < t.startDate := by omega
    simp [computeStatus, h', h]
  · intro h1 h2
    have h1' : ¬ now < t.startDate := by omega
    have h2' : ¬ now > t.endDate := by omega
    simp [computeStatus, h1', h2']

/-- C8 witness: the theorem applied to `testOne` at now = 50, with each
hypothesis discharged concretely. -/
theorem computeStatus_spec_witness :
    testOne.startDate < testOne.endDate ∧
    computeStatus testOne 50 = "active" ∧
    computeStatus { testOne with status := "finished" } 50 =
      computeStatus testOne 50 :=
  ⟨by decide,
   (computeStatus_spec testOne 50 (by decide)).2.2.1 (by decide) (by decide),
   (computeStatus_spec testOne 50 (by decide)).2.2.2 "finished"⟩

/-- C5 (confirmed): `finishAttempt` fails NotStarted when no (student, test)
row exists; otherwise — stated here for an attempt carrying a dueTime, as
every admission allocates one — it stamps endTime = now and stores status
'expired' when now > dueTime and 'completed' otherwise.  (The row with no
stored dueTime is the subject of C10.) -/
theorem finishAttempt_spec (db : DB) (studentId testId : Nat) (now : Int) :
    (findStudentTest db studentId testId = none →
      finishAttempt db studentId testId now = .error .notStarted) ∧
    (∀ st d, findStudentTest db studentId testId = some st →
      st.dueTime = some d →
      ∃ db', finishAttempt db studentId testId now =
          .ok (if now > d then "expired" else "completed", db') ∧
        findStudentTest db' studentId testId =
          some { st with endTime := some now,
                         status := if now > d then "expired"
                                   else "completed" }) := by
  constructor
  · intro h
    simp [finishAttempt, h]
  · intro st d hfind hdue
    have hkey : attemptKey studentId testId st = true := List.find?_some hfind
    refine ⟨{ db with studentTests := updateFirst (attemptKey studentId testId) (fun r => { r with endTime := some now, status := if now > d then "expired" else "completed" }) db.studentTests }, ?_, ?_⟩
    · simp only [finishAttempt, hfind, hdue, decide_eq_true_eq]
    · show (updateFirst (attemptKey studentId testId) (fun r => { r with endTime := some now, status := if now > d then "expired" else "completed" }) db.studentTests).find? (attemptKey studentId testId) = _
      exact find?_updateFirst_self hfind hkey

/-- C5 witness: NotStarted on a state with no attempt, and an expired finish
of the elapsed attempt in `reentryDB` at now = 9000000 > dueTime
4600000. -/
theorem finishAttempt_spec_witness :
    finishAttempt eligibilityDB 20 2 0 = .error .notStarted ∧
    (∃ db', finishAttempt reentryDB 7 1 9000000 = .ok ("expired", db') ∧
      findStudentTest db' 7 1 =
        some { inProgressAttempt with endTime := some 9000000, status := "expired" }) := by
  refine ⟨(finishAttempt_spec eligibilityDB 20 2 0).1 (by decide), ?_⟩
  have h := (finishAttempt_spec reentryDB 7 1 9000000).2 inProgressAttempt
    4600000 (by decide) rfl
  rw [if_pos (show (9000000 : Int) > 4600000 by decide)] at h
  exact h

/-- C10 (confirmed): a `StudentTest` row without a dueTime — e.g. the row
created by `computeTotal`'s score upsert before any admission — is always
finished as 'completed', never 'expired', no matter how late `now` is:
the source's `st.dueTime && now > st.dueTime` is falsy when dueTime is
unset. -/
theorem finishAttempt_no_dueTime_completed (db : DB) (studentId testId : Nat)
    (now : Int) (st : StudentTest)
    (hfind : findStudentTest db studentId testId = some st)
    (hdue : st.dueTime = none) :
    ∃ db', finishAttempt db studentId testId now = .ok ("completed", db') ∧
      findStudentTest db' studentId testId =
        some { st with endTime := some now, status := "completed" } := by
  have hkey : attemptKey studentId testId st = true := List.find?_some hfind
  refine ⟨{ db with studentTests := updateFirst (attemptKey studentId testId) (fun r => { r with endTime := some now, status := "completed" }) db.studentTests }, ?_, ?_⟩
  · simp [finishAttempt, hfind, hdue]
  · show (updateFirst (attemptKey studentId testId) (fun r => { r with endTime := some now, status := "completed" }) db.studentTests).find? (attemptKey studentId testId) = _
    exact find?_updateFirst_self hfind hkey

/-- C10 witness: `computeTotal` creates the (1, 3) row with no dueTime, and
finishing it at the very late instant 999999999999 still stores
'completed'. -/
theorem finishAttempt_no_dueTime_completed_witness :
    computeTotal blankDB 1 2 (some 3) = .ok (0, scoreOnlyDB) ∧
    (∃ db', finishAttempt scoreOnlyDB 1 3 999999999999 =
        .ok ("completed", db') ∧
      findStudentTest db' 1 3 =
        some { scoreOnlyAttempt with endTime := some 999999999999, status := "completed" }) :=
  ⟨rfl, finishAttempt_no_dueTime_completed scoreOnlyDB 1 3 999999999999
    scoreOnlyAttempt (by decide) rfl⟩

/-- C3 counterexample: `startAttempt` on `testNine` (durationMinutes = 60)
at S = 7200000 (T+2h over T=0) allocates dueTime = 10800000 (T+3h); yet
`submitAnswer` with examStartTime = S at now = 11400000 (T+3h10m),
strictly after that allocated dueTime, succeeds instead of failing
ExamExpired: the submission route enforces S + 2 hours, not the
attempt's window. -/
theorem submitAnswer_deadline_mismatch_cex :
    (startAttempt submitDB 1 9 5 "A" 7200000).toOption.map
        (fun r => r.1.dueTime) = some (some 10800000) ∧
    (10800000 : Int) < 11400000 ∧
    (submitAnswer submitDB 1 4 5 "A" 7200000 "hello" (some 9) none none
      11400000).toOption.isSome = true := by
  refine ⟨rfl, by decide, rfl⟩

/-- C3, amended: the deadline `submitAnswer` enforces is always
examStartTime + 120 minutes (the hardcoded 2 hours of the submission
route), independent of the test's durationMinutes, so it coincides with
the window allocated by `startAttempt` only when durationMinutes = 120.
With d = 60 and S = T+2h, submissions at T+2h50m and at T+3h10m both
succeed; a submission fails ExamExpired exactly when
now > S + 2 hours. -/
theorem submitAnswer_two_hour_deadline (db : DB)
    (studentId questionId domainId : Nat) (sec : String)
    (examStartTime : Int) (answerText : String) (testId : Option Nat)
    (imageUrl imagePublicId : Option String) (now : Int)
    (hq0 : questionId ≠ 0) (hd0 : domainId ≠ 0) (hs0 : sec ≠ "")
    (he0 : examStartTime ≠ 0)
    (hq : db.questions.contains questionId = true)
    (hd : db.domains.contains domainId = true) :
    submitAnswer db studentId questionId domainId sec examStartTime
        answerText testId imageUrl imagePublicId now = .error .examExpired
      ↔ now > examStartTime + 2 * 60 * 60 * 1000 := by
  have hg1 : (questionId == 0) = false := by simp [hq0]
  have hg2 : (domainId == 0) = false := by simp [hd0]
  have hg3 : (sec == "") = false := by simp [hs0]
  have hg4 : (examStartTime == 0) = false := by simp [he0]
  by_cases hexp : now > examStartTime + 2 * 60 * 60 * 1000
  · simp only [submitAnswer, hg1, hg2, hg3, hg4, hq, hd, Bool.or_false,
      Bool.false_or, Bool.or_self, if_false, Bool.not_true, if_pos hexp]
    exact ⟨fun _ => hexp, fun _ => rfl⟩
  · simp only [submitAnswer, hg1, hg2, hg3, hg4, hq, hd, Bool.or_false,
      Bool.false_or, Bool.or_self, Bool.not_true, if_neg hexp]
    constructor
    · intro h
      exfalso
      repeat' split at h
      all_goals simp at h
    · intro h
      exact absurd h hexp

/-- C3 witness: the amended theorem in `submitDB`, once just inside and once
just past the two-hour mark over examStartTime = 7200000. -/
theorem submitAnswer_two_hour_deadline_witness :
    (¬ submitAnswer submitDB 1 4 5 "A" 7200000 "hello" (some 9) none none
        11400000 = .error .examExpired) ∧
    submitAnswer submitDB 1 4 5 "A" 7200000 "hello" (some 9) none none
        14400001 = .error .examExpired :=
  ⟨fun h => absurd ((submitAnswer_two_hour_deadline submitDB 1 4 5 "A"
      7200000 "hello" (some 9) none none 11400000 (by decide) (by decide)
      (by decide) (by decide) (by decide) (by decide)).mp h) (by decide),
   (submitAnswer_two_hour_deadline submitDB 1 4 5 "A" 7200000 "hello"
      (some 9) none none 14400001 (by decide) (by decide) (by decide)
      (by decide) (by decide) (by decide)).mpr (by decide)⟩

/-- C4 (confirmed): with well-formed request fields and the referenced
question and domain present, (i) a submission strictly after
examEndTime = examStartTime + 2 hours (the route's fixed exam duration)
fails ExamExpired; (ii) a submission whose answerText is empty after
trimming and that survives the earlier gates fails with the route's
validation error "Answer text is required"; and (iii) a successful
submission is only possible when the deadline has not passed and the
trimmed text is non-empty.  Since an erroring handler returns before its
write, an error outcome carries no successor state in this embedding: no
Answer row is created or modified on those paths. -/
theorem submitAnswer_reject_spec (db : DB)
    (studentId questionId domainId : Nat) (sec : String)
    (examStartTime : Int) (answerText : String) (testId : Option Nat)
    (imageUrl imagePublicId : Option String) (now : Int)
    (hq0 : questionId ≠ 0) (hd0 : domainId ≠ 0) (hs0 : sec ≠ "")
    (he0 : examStartTime ≠ 0)
    (hq : db.questions.contains questionId = true)
    (hd : db.domains.contains domainId = true) :
    (now > examStartTime + 2 * 60 * 60 * 1000 →
      submitAnswer db studentId questionId domainId sec examStartTime
        answerText testId imageUrl imagePublicId now = .error .examExpired) ∧
    (¬ now > examStartTime + 2 * 60 * 60 * 1000 →
      trimString answerText = "" →
      submitAnswer db studentId questionId domainId sec examStartTime
        answerText testId imageUrl imagePublicId now =
          .error .answerTextRequired) ∧
    (∀ r, submitAnswer db studentId questionId domainId sec examStartTime
        answerText testId imageUrl imagePublicId now = .ok r →
      ¬ now > examStartTime + 2 * 60 * 60 * 1000 ∧
        trimString answerText ≠ "") := by
  have hg1 : (questionId == 0) = false := by simp [hq0]
  have hg2 : (domainId == 0) = false := by simp [hd0]
  have hg3 : (sec == "") = false := by simp [hs0]
  have hg4 : (examStartTime == 0) = false := by simp [he0]
  have hA : now > examStartTime + 2 * 60 * 60 * 1000 →
      submitAnswer db studentId questionId domainId sec examStartTime
        answerText testId imageUrl imagePublicId now
        = .error .examExpired := by
    intro h
    simp only [submitAnswer, hg1, hg2, hg3, hg4, hq, hd, Bool.or_false,
      Bool.false_or, Bool.or_self, Bool.not_true, if_false, if_pos h]
    simp
  have hB : ¬ now > examStartTime + 2 * 60 * 60 * 1000 →
      trimString answerText = "" →
      submitAnswer db studentId questionId domainId sec examStartTime
        answerText testId imageUrl imagePublicId now
        = .error .answerTextRequired := by
    intro hne htrim
    have ht : (trimString answerText == "") = true := by simp [htrim]
    simp only [submitAnswer, hg1, hg2, hg3, hg4, hq, hd, Bool.or_false,
      Bool.false_or, Bool.or_self, Bool.not_true, if_false, if_neg hne,
      ht, if_true]
    simp
  refine ⟨hA, hB, ?_⟩
  intro r h
  by_cases hexp : now > examStartTime + 2 * 60 * 60 * 1000
  · rw [hA hexp] at h
    exact Except.noConfusion h
  · refine ⟨hexp, ?_⟩
    intro htrim
    rw [hB hexp htrim] at h
    exact Except.noConfusion h

/-- C4 witness: in `submitDB`, a submission past the two-hour deadline fails
ExamExpired, and a whitespace-only answerText inside the deadline fails
the text-required validation. -/
theorem submitAnswer_reject_spec_witness :
    submitAnswer submitDB 1 4 5 "A" 7200000 "hi" (some 9) none none
      14400001 = .error .examExpired ∧
    submitAnswer submitDB 1 4 5 "A" 7200000 "   " (some 9) none none
      11400000 = .error .answerTextRequired :=
  ⟨(submitAnswer_reject_spec submitDB 1 4 5 "A" 7200000 "hi" (some 9)
      none none 14400001 (by decide) (by decide) (by decide) (by decide)
      (by decide) (by decide)).1 (by decide),
   (submitAnswer_reject_spec submitDB 1 4 5 "A" 7200000 "   " (some 9)
      none none 11400000 (by decide) (by decide) (by decide) (by decide)
      (by decide) (by decide)).2.1 (by decide) (by decide)⟩

/-- Helper: with distinct ids, addMark on an answer whose mark is unset
performs the conditional update and reports the updated answer. -/
theorem addMark_unset (db : DB) (answerId : Nat) (a : StudentAnswer) (m : Int)
    (hnd : (db.answers.map (fun b => b.id)).Nodup)
    (ha : db.answers.find? (fun b => b.id == answerId) = some a)
    (hmark : a.mark = none) (hm : 0 ≤ m) :
    addMark db answerId m =
      .ok ({ a with mark := some m, markSubmitted := true },
        { db with answers := updateFirst (fun b => b.id == answerId && b.mark.isNone) (fun b => { b with mark := some m, markSubmitted := true }) db.answers }) := by
  have hconj : db.answers.find? (fun b => b.id == answerId && b.mark.isNone)
      = some a := by
    rw [find?_id_conj hnd ha]
    simp [hmark]
  simp only [addMark, if_neg (not_lt.mpr hm), hconj]

/-- Helper: with distinct ids, addMark on an answer whose mark is already
set fails MarkAlreadyExists (the conditional update matches nothing and
the follow-up lookup finds the answer). -/
theorem addMark_set (db : DB) (answerId : Nat) (a : StudentAnswer)
    (m k : Int)
    (hnd : (db.answers.map (fun b => b.id)).Nodup)
    (ha : db.answers.find? (fun b => b.id == answerId) = some a)
    (hmark : a.mark = some k) (hm : 0 ≤ m) :
    addMark db answerId m = .error .markAlreadyExists := by
  have hconj : db.answers.find? (fun b => b.id == answerId && b.mark.isNone)
      = none := by
    rw [find?_id_conj hnd ha]
    simp [hmark]
  simp only [addMark, if_neg (not_lt.mpr hm), hconj, ha]

/-- Helper: with distinct ids, editMark on an answer whose mark is set
performs the conditional update. -/
theorem editMark_set (db : DB) (answerId : Nat) (a : StudentAnswer)
    (m k : Int)
    (hnd : (db.answers.map (fun b => b.id)).Nodup)
    (ha : db.answers.find? (fun b => b.id == answerId) = some a)
    (hmark : a.mark = some k) (hm : 0 ≤ m) :
    editMark db answerId m =
      .ok ({ a with mark := some m },
        { db with answers := updateFirst (fun b => b.id == answerId && b.mark.isSome) (fun b => { b with mark := some m }) db.answers }) := by
  have hconj : db.answers.find? (fun b => b.id == answerId && b.mark.isSome)
      = some a := by
    rw [find?_id_conj hnd ha]
    simp [hmark]
  simp only [editMark, if_neg (not_lt.mpr hm), hconj]

/-- Helper: with distinct ids, editMark on an answer whose mark is unset
fails NoExistingMark. -/
theorem editMark_unset (db : DB) (answerId : Nat) (a : StudentAnswer)
    (m : Int)
    (hnd : (db.answers.map (fun b => b.id)).Nodup)
    (ha : db.answers.find? (fun b => b.id == answerId) = some a)
    (hmark : a.mark = none) (hm : 0 ≤ m) :
    editMark db answerId m = .error .noExistingMark := by
  have hconj : db.answers.find? (fun b => b.id == answerId && b.mark.isSome)
      = none := by
    rw [find?_id_conj hnd ha]
    simp [hmark]
  simp only [editMark, if_neg (not_lt.mpr hm), hconj, ha]

/-- C6 (confirmed): with pairwise-distinct answer ids (Mongo `_id`
uniqueness), addMark succeeds exactly when the answer's mark is unset and
otherwise fails MarkAlreadyExists; editMark succeeds exactly when a mark
exists and otherwise fails NoExistingMark; in particular after a
successful addMark, a second addMark on the same answer fails
MarkAlreadyExists while editMark succeeds. -/
theorem marks_spec (db : DB) (answerId : Nat) (a : StudentAnswer) (m m2 : Int)
    (hnd : (db.answers.map (fun b => b.id)).Nodup)
    (ha : db.answers.find? (fun b => b.id == answerId) = some a)
    (hm : 0 ≤ m) (hm2 : 0 ≤ m2) :
    (a.mark = none → ∃ db',
        addMark db answerId m =
          .ok ({ a with mark := some m, markSubmitted := true }, db') ∧
        addMark db' answerId m2 = .error .markAlreadyExists ∧
        (∃ db'', editMark db' answerId m2 =
          .ok ({ a with mark := some m2, markSubmitted := true }, db''))) ∧
    (∀ k, a.mark = some k →
      addMark db answerId m = .error .markAlreadyExists) ∧
    (∀ k, a.mark = some k → ∃ db', editMark db answerId m =
        .ok ({ a with mark := some m }, db')) ∧
    (a.mark = none → editMark db answerId m = .error .noExistingMark) := by
  refine ⟨?_, ?_, ?_, ?_⟩
  · intro hmark
    have hnd' : ((updateFirst (fun b => b.id == answerId && b.mark.isNone) (fun b => { b with mark := some m, markSubmitted := true }) db.answers).map (fun b => b.id)).Nodup := by
      rw [map_updateFirst (fun b => b.id) (fun b => b.id == answerId && b.mark.isNone) (fun b => { b with mark := some m, markSubmitted := true }) db.answers (fun b hb => rfl)]
      exact hnd
    have ha' : (updateFirst (fun b => b.id == answerId && b.mark.isNone) (fun b => { b with mark := some m, markSubmitted := true }) db.answers).find? (fun b => b.id == answerId) = some ({ a with mark := some m, markSubmitted := true }) :=
      find?_id_updateFirst_conj ha (by simp [hmark]) (fun b => rfl)
    refine ⟨_, addMark_unset db answerId a m hnd ha hmark hm, ?_, ?_⟩
    · exact addMark_set _ answerId _ m2 m hnd' ha' rfl hm2
    · exact ⟨_, editMark_set _ answerId _ m2 m hnd' ha' rfl hm2⟩
  · intro k hmark
    exact addMark_set db answerId a m k hnd ha hmark hm
  · intro k hmark
    exact ⟨_, editMark_set db answerId a m k hnd ha hmark hm⟩
  · intro hmark
    exact editMark_unset db answerId a m hnd ha hmark hm

/-- C6 witness: on `marksDB`, addMark 3 succeeds, a second addMark 4 fails
MarkAlreadyExists while editMark 4 succeeds, and editMark before any mark
fails NoExistingMark. -/
theorem marks_spec_witness :
    (∃ db', addMark marksDB 11 3 =
        .ok ({ baseAnswer with mark := some 3, markSubmitted := true },
          db') ∧
      addMark db' 11 4 = .error .markAlreadyExists ∧
      (∃ db'', editMark db' 11 4 =
        .ok ({ baseAnswer with mark := some 4, markSubmitted := true },
          db''))) ∧
    editMark marksDB 11 3 = .error .noExistingMark := by
  have h := marks_spec marksDB 11 baseAnswer 3 4 (by decide) (by decide)
    (by decide) (by decide)
  exact ⟨h.1 rfl, h.2.2.2 rfl⟩

/-- Folding plus over a list equals the sum of its image, for any starting
accumulator. -/
theorem foldl_add_map {α : Type} (f : α → Int) (l : List α) (acc : Int) :
    l.foldl (fun sum a => sum + f a) acc = acc + (l.map f).sum := by
  induction l generalizing acc with
  | nil => simp
  | cons x xs ih => simp [ih, add_assoc]

/-- C7 (confirmed): `computeTotal` returns the sum of marks over the
matching answers with an unset mark treated as 0, and when a testId is
given it persists that sum onto the (student, test) attempt's score via
upsert: after the call the row exists and carries score = the sum,
whether or not it existed before. -/
theorem computeTotal_spec (db : DB) (studentId domainId tid : Nat)
    (hs : studentId ≠ 0) (hd : domainId ≠ 0) :
    ∃ db', computeTotal db studentId domainId (some tid) =
        .ok (answersMarkSum db studentId domainId (some tid), db') ∧
      ∃ st, findStudentTest db' studentId tid = some st ∧
        st.score = some (answersMarkSum db studentId domainId (some tid)) := by
  have hg1 : (studentId == 0) = false := by simp [hs]
  have hg2 : (domainId == 0) = false := by simp [hd]
  have htot : (db.answers.filter
        (totalFilter studentId domainId (some tid))).foldl
      (fun sum a => sum + markOrZero a) 0
      = answersMarkSum db studentId domainId (some tid) := by
    rw [foldl_add_map]
    simp [answersMarkSum]
  cases hfind : findStudentTest db studentId tid with
  | some st0 =>
    refine ⟨{ db with studentTests := updateFirst (attemptKey studentId tid) (fun r => { r with score := some (answersMarkSum db studentId domainId (some tid)) }) db.studentTests }, ?_, ?_⟩
    · simp only [computeTotal, hg1, hg2, hfind, htot]
      simp
    · refine ⟨{ st0 with score := some (answersMarkSum db studentId domainId (some tid)) }, ?_, rfl⟩
      show (updateFirst (attemptKey studentId tid) (fun r => { r with score := some (answersMarkSum db studentId domainId (some tid)) }) db.studentTests).find? (attemptKey studentId tid) = _
      unfold findStudentTest at hfind
      have hkey : attemptKey studentId tid st0 = true := List.find?_some hfind
      exact find?_updateFirst_selfE (attemptKey studentId tid) (fun r => { r with score := some (answersMarkSum db studentId domainId (some tid)) }) db.studentTests st0 hfind hkey
  | none =>
    refine ⟨{ db with studentTests := db.studentTests ++ [{ student := studentId, test := tid, startTime := none, dueTime := none, endTime := none, score := some (answersMarkSum db studentId domainId (some tid)), selectedDomain := none, selectedSection := none, status := "pending" }] }, ?_, ?_⟩
    · simp only [computeTotal, hg1, hg2, hfind, htot]
      simp
    · refine ⟨({ student := studentId, test := tid, startTime := none, dueTime := none, endTime := none, score := some (answersMarkSum db studentId domainId (some tid)), selectedDomain := none, selectedSection := none, status := "pending" } : StudentTest), ?_, rfl⟩
      show (db.studentTests ++ [({ student := studentId, test := tid, startTime := none, dueTime := none, endTime := none, score := some (answersMarkSum db studentId domainId (some tid)), selectedDomain := none, selectedSection := none, status := "pending" } : StudentTest)]).find? (attemptKey studentId tid) = _
      unfold findStudentTest at hfind
      rw [find?_append_none _ hfind]
      simp [attemptKey]

/-- C7 witness: over marks [3, 5, null] the total is 8 and it is persisted
onto the upserted (1, 3) attempt. -/
theorem computeTotal_spec_witness :
    ∃ db', computeTotal totalsDB 1 2 (some 3) = .ok (8, db') ∧
      ∃ st, findStudentTest db' 1 3 = some st ∧ st.score = some 8 := by
  have h := computeTotal_spec totalsDB 1 2 3 (by decide) (by decide)
  rw [show answersMarkSum totalsDB 1 2 (some 3) = (8 : Int) by decide] at h
  exact h

/-- Inversion of a successful submission: it either replaced the unique
existing key-match in place, or appended the fresh answer when no match
existed. -/
theorem submitAnswer_ok_inv (db : DB) (studentId questionId domainId : Nat)
    (sec : String) (examStartTime : Int) (answerText : String)
    (testId : Option Nat) (imageUrl imagePublicId : Option String)
    (now : Int) (r : StudentAnswer × DB)
    (h : submitAnswer db studentId questionId domainId sec examStartTime
      answerText testId imageUrl imagePublicId now = .ok r) :
    (∃ a, db.answers.find? (answerKey studentId questionId domainId sec)
        = some a ∧
      r = (assignAnswerData studentId questionId domainId sec testId examStartTime (examStartTime + 2 * 60 * 60 * 1000) now (trimString answerText) imageUrl imagePublicId a,
        { db with answers := updateFirst (answerKey studentId questionId domainId sec) (assignAnswerData studentId questionId domainId sec testId examStartTime (examStartTime + 2 * 60 * 60 * 1000) now (trimString answerText) imageUrl imagePublicId) db.answers })) ∨
    (db.answers.find? (answerKey studentId questionId domainId sec)
        = none ∧
      r = (freshAnswer db studentId questionId domainId sec testId examStartTime answerText imageUrl imagePublicId now,
        { db with answers := db.answers ++ [freshAnswer db studentId questionId domainId sec testId examStartTime answerText imageUrl imagePublicId now], nextAnswerId := db.nextAnswerId + 1 })) := by
  simp only [submitAnswer] at h
  split at h
  · exact Except.noConfusion h
  · split at h
    · exact Except.noConfusion h
    · split at h
      · exact Except.noConfusion h
      · split at h
        · exact Except.noConfusion h
        · split at h
          · exact Except.noConfusion h
          · split at h
            · next a heq =>
              left
              injection h with h
              exact ⟨a, heq, h.symm⟩
            · next heq =>
              right
              injection h with h
              exact ⟨heq, h.symm⟩

/-- The in-place replacement of the submission route leaves the
(student, question, domain, section) key of a matching row unchanged. -/
theorem answerKeyTuple_assign (studentId questionId domainId : Nat)
    (sec : String) (testId : Option Nat) (startTime endTime now : Int)
    (trimmed : String) (imageUrl imagePublicId : Option String)
    (b : StudentAnswer)
    (hb : answerKey studentId questionId domainId sec b = true) :
    answerKeyTuple (assignAnswerData studentId questionId domainId sec
      testId startTime endTime now trimmed imageUrl imagePublicId b) =
      answerKeyTuple b := by
  simp only [answerKey, Bool.and_eq_true, beq_iff_eq] at hb
  obtain ⟨⟨⟨h1, h2⟩, h3⟩, h4⟩ := hb
  simp [answerKeyTuple, assignAnswerData, h1, h2, h3, h4]

/-- A row failing the submission route's key filter has a different
(student, question, domain, section) key. -/
theorem key_ne_of_not_match (studentId questionId domainId : Nat)
    (sec : String) (b : StudentAnswer)
    (hb : ¬ answerKey studentId questionId domainId sec b = true) :
    answerKeyTuple b ≠ (studentId, questionId, domainId, sec) := by
  intro he
  apply hb
  simp only [answerKeyTuple, Prod.mk.injEq] at he
  obtain ⟨h1, h2, h3, h4⟩ := he
  simp [answerKey, h1, h2, h3, h4]

/-- Appending a row whose key is new preserves key-uniqueness. -/
theorem nodup_append_fresh (l : List StudentAnswer) (x : StudentAnswer)
    (hu : (l.map answerKeyTuple).Nodup)
    (hn : ∀ b ∈ l, answerKeyTuple b ≠ answerKeyTuple x) :
    ((l ++ [x]).map answerKeyTuple).Nodup := by
  rw [List.map_append]
  refine List.Nodup.append hu (List.nodup_singleton _) ?_
  intro t ht1 ht2
  rw [List.mem_map] at ht1
  obtain ⟨b, hb, hbt⟩ := ht1
  rw [List.map_singleton, List.mem_singleton] at ht2
  exact hn b hb (by rw [hbt, ht2])

/-- C9 (confirmed, for the sequential embedding): if at most one Answer row
exists per (student, question, domain, section), then after any
successful `submitAnswer` this is still so; when a key-match existed the
call replaced that row in place — same row count, the result being the
old row with content, snapshot and timestamp overwritten — rather than
creating a duplicate; and the remaining operations preserve the
invariant as well: the mark routes update one row without touching its
key, and the start/finish/total routes never write the Answer
collection.  (The claim's cross-request race is outside a sequential
embedding; the schema declares no unique index on this key, so the
guarantee rests on this route logic.) -/
theorem answer_uniqueness_spec (db : DB)
    (studentId questionId domainId : Nat) (sec : String)
    (examStartTime : Int) (answerText : String) (testId : Option Nat)
    (imageUrl imagePublicId : Option String) (now : Int)
    (answerId s2 t2 d2 : Nat) (sec2 : String) (now2 : Int) (m : Int)
    (hu : answersKeyUnique db) :
    (∀ r, submitAnswer db studentId questionId domainId sec examStartTime
        answerText testId imageUrl imagePublicId now = .ok r →
      answersKeyUnique r.2 ∧
      (∀ a, db.answers.find? (answerKey studentId questionId domainId sec)
          = some a →
        r.2.answers.length = db.answers.length ∧
        r.1 = assignAnswerData studentId questionId domainId sec testId
          examStartTime (examStartTime + 2 * 60 * 60 * 1000) now
          (trimString answerText) imageUrl imagePublicId a)) ∧
    (∀ r, addMark db answerId m = .ok r → answersKeyUnique r.2) ∧
    (∀ r, editMark db answerId m = .ok r → answersKeyUnique r.2) ∧
    (∀ r, startAttempt db s2 t2 d2 sec2 now2 = .ok r →
      r.2.answers = db.answers) ∧
    (∀ r, finishAttempt db s2 t2 now2 = .ok r → r.2.answers = db.answers) ∧
    (∀ r, computeTotal db s2 d2 testId = .ok r →
      r.2.answers = db.answers) := by
  refine ⟨?_, ?_, ?_, ?_, ?_, ?_⟩
  · intro r h
    rcases submitAnswer_ok_inv db studentId questionId domainId sec
        examStartTime answerText testId imageUrl imagePublicId now r h with
      ⟨a, heq, hr⟩ | ⟨heq, hr⟩
    · subst hr
      constructor
      · unfold answersKeyUnique at hu ⊢
        dsimp only
        rw [map_updateFirst answerKeyTuple
          (answerKey studentId questionId domainId sec)
          (assignAnswerData studentId questionId domainId sec testId
            examStartTime (examStartTime + 2 * 60 * 60 * 1000) now
            (trimString answerText) imageUrl imagePublicId)
          db.answers
          (fun b hb => answerKeyTuple_assign studentId questionId domainId
            sec testId examStartTime (examStartTime + 2 * 60 * 60 * 1000)
            now (trimString answerText) imageUrl imagePublicId b hb)]
        exact hu
      · intro a' ha'
        rw [heq] at ha'
        injection ha' with ha'
        subst ha'
        refine ⟨?_, rfl⟩
        dsimp only
        rw [length_updateFirst]
    · subst hr
      constructor
      · unfold answersKeyUnique at hu ⊢
        dsimp only
        refine nodup_append_fresh db.answers _ hu ?_
        intro b hb
        show answerKeyTuple b ≠ (studentId, questionId, domainId, sec)
        exact key_ne_of_not_match studentId questionId domainId sec b
          (List.find?_eq_none.mp heq b hb)
      · intro a' ha'
        rw [heq] at ha'
        exact Option.noConfusion ha'
  · intro r h
    simp only [addMark] at h
    split at h
    · exact Except.noConfusion h
    · split at h
      · next a heq =>
        injection h with h
        subst h
        unfold answersKeyUnique at hu ⊢
        dsimp only
        rw [map_updateFirst answerKeyTuple
          (fun b => b.id == answerId && b.mark.isNone)
          (fun b => { b with mark := some m, markSubmitted := true })
          db.answers (fun b hb => rfl)]
        exact hu
      · split at h <;> exact Except.noConfusion h
  · intro r h
    simp only [editMark] at h
    split at h
    · exact Except.noConfusion h
    · split at h
      · next a heq =>
        injection h with h
        subst h
        unfold answersKeyUnique at hu ⊢
        dsimp only
        rw [map_updateFirst answerKeyTuple
          (fun b => b.id == answerId && b.mark.isSome)
          (fun b => { b with mark := some m })
          db.answers (fun b hb => rfl)]
        exact hu
      · split at h <;> exact Except.noConfusion h
  · intro r h
    simp only [startAttempt] at h
    split at h
    · exact Except.noConfusion h
    · split at h
      · exact Except.noConfusion h
      · split at h
        · exact Except.noConfusion h
        · split at h
          · exact Except.noConfusion h
          · split at h
            · exact Except.noConfusion h
            · split at h
              · injection h with h
                subst h
                rfl
              · injection h with h
                subst h
                rfl
  · intro r h
    simp only [finishAttempt] at h
    split at h
    · exact Except.noConfusion h
    · injection h with h
      subst h
      rfl
  · intro r h
    simp only [computeTotal] at h
    split at h
    · exact Except.noConfusion h
    · split at h
      · injection h with h
        subst h
        rfl
      · split at h
        · injection h with h
          subst h
          rfl
        · injection h with h
          subst h
          rfl

/-- C9 witness: in `marksDB` (key-unique), a second submission for the key
of `baseAnswer` succeeds and the state remains key-unique. -/
theorem answer_uniqueness_spec_witness :
    answersKeyUnique marksDB ∧
    (∃ r, submitAnswer marksDB 1 4 5 "A" 50 "updated" (some 9) none none
        1000 = .ok r ∧ answersKeyUnique r.2 ∧
      r.2.answers.length = marksDB.answers.length) := by
  have hu : answersKeyUnique marksDB := by
    unfold answersKeyUnique
    decide
  have h := answer_uniqueness_spec marksDB 1 4 5 "A" 50 "updated" (some 9)
    none none 1000 11 1 3 2 "A" 0 3 hu
  refine ⟨hu, ?_⟩
  obtain ⟨r, hr⟩ : ∃ r, submitAnswer marksDB 1 4 5 "A" 50 "updated"
      (some 9) none none 1000 = .ok r := ⟨_, rfl⟩
  obtain ⟨h1, h2⟩ := h.1 r hr
  exact ⟨r, hr, h1, (h2 baseAnswer (by decide)).1⟩

end QAPortal
